import Mathlib

/-!
Shallow embedding of the link-auditing crawler (`src/robocop/robocop.go`,
the latest iteration of the program, with the earlier iterations in
`src/unnamed/part_000` and `src/unnamed/part_001`).

Go maps are embedded as association lists: `headReport = map[string]int`
becomes `HeadsLedger = List (String × Int)` (a missing key reads as `0`,
exactly as a Go map lookup of an absent key yields the zero value), and
`pageReport = map[string]map[string]string` becomes
`Pages = List (String × List String)` — the list order plays the role of
one particular iteration order of the Go map, which Go does not fix.

The event handlers installed by `makeColly` are pure state transformers
here: each takes the data the callback reads and returns the updated
ledgers together with the side requests (`c.Head(...)` / `c.Visit(...)`)
the handler enqueues, in the order the Go code enqueues them.
-/

namespace Robocop

/-- Character allowed in a URL scheme after the first (Go `net/url`:
letters, digits, `+`, `-`, `.`). -/
def isSchemeTail (c : Char) : Bool :=
  c.isAlpha || c.isDigit || c = '+' || c = '-' || c = '.'

/-- Scan for the `:` terminating a scheme, accumulating the scheme
characters seen so far (reversed). Returns `""` when no valid scheme
terminated by `:` exists. -/
def schemeCore : List Char → List Char → String
  | [], _ => ""
  | c :: rest, acc =>
    if c = ':' then String.mk acc.reverse
    else if isSchemeTail c then schemeCore rest (c :: acc)
    else ""

/-- Scheme of a URL string, as `url.Parse(u).Scheme` computes it in the Go
standard library used by the source: the longest leading run of scheme
characters (first character a letter) terminated by `:`, else `""`.
All URLs appearing in the repository and its spec are lower-case, so the
lower-casing `net/url` performs is the identity here. -/
def scheme (u : String) : String :=
  match u.toList with
  | [] => ""
  | c :: rest => if c.isAlpha then schemeCore rest [c] else ""

/-- Result of setting `Scheme = "https"` on a URL parsed from a string
with scheme `http` and re-serialising it (`link.Scheme = "https";
link.String()` in the source): the leading `http:` becomes `https:`. -/
def httpsVariant (u : String) : String :=
  match u.toList with
  | 'h' :: 't' :: 't' :: 'p' :: ':' :: rest =>
      String.mk ('h' :: 't' :: 't' :: 'p' :: 's' :: ':' :: rest)
  | _ => u

/-- StatusLedger: the Go `headReport = map[string]int` as an association
list. -/
abbrev HeadsLedger := List (String × Int)

/-- Lookup in the status ledger; an absent key reads `0`, the Go zero
value for `int` (the spec's "unresolved" marker). -/
def lookupStatus : HeadsLedger → String → Int
  | [], _ => 0
  | (k, v) :: t, u => if k = u then v else lookupStatus t u

/-- Map assignment `heads[url] = code`: overwrite the existing entry or
append a new one. -/
def setStatus : HeadsLedger → String → Int → HeadsLedger
  | [], u, c => [(u, c)]
  | (k, v) :: t, u, c =>
    if k = u then (u, c) :: t else (k, v) :: setStatus t u c

/-- PageLinkSet: the Go `pageReport = map[string]map[string]string` as an
association list from source page to the list of links found on it. -/
abbrev Pages := List (String × List String)

/-- Record the edge `(u, link)`: create the inner map for `u` when absent
(`if _, ok := pages[u]; !ok { pages[u] = ... }`), then insert the link as
a key of the inner map (`pages[u][link] = ""`), which deduplicates. -/
def insertEdge : Pages → String → String → Pages
  | [], u, link => [(u, [link])]
  | (k, links) :: t, u, link =>
    if k = u then (k, if link ∈ links then links else links ++ [link]) :: t
    else (k, links) :: insertEdge t u link

/-- Body of the inner loop of `finishReport` (robocop.go lines 222-249)
for one `(sourcePage, link)` edge: `none` is the Go `continue`, `some row`
is the row appended to the report. `row` is created by
`make([]string, 5)`, so every cell starts out `""`; the source assigns
`row[0]`, `row[1]`, `row[2]` and possibly `row[4]`, but never assigns
`row[3]`, so the later read `heads[row[3]]` is a lookup of the key `""`
and the emitted row always carries `""` in its fourth cell. -/
def rowFor (heads : HeadsLedger) (onlyFailures : Bool)
    (sourcePage link : String) : Option (List String) :=
  let linkStatusCode := lookupStatus heads link
  if linkStatusCode = 200 ∨ linkStatusCode = 0 then none
  else if scheme link = "http" then
    let httpsLinkStatusCode := lookupStatus heads ""
    if onlyFailures = true ∧ httpsLinkStatusCode = 200 then none
    else some [sourcePage, link, toString linkStatusCode, "",
      if httpsLinkStatusCode ≠ 0 then toString httpsLinkStatusCode else ""]
  else some [sourcePage, link, toString linkStatusCode, "", ""]

/-- Report Aggregator finalize: `finishReport(pages, heads, onlyFailures)`
of robocop.go (lines 216-252). The two nested `for ... range` loops with
`continue` and `rows = append(rows, row)` are exactly a flatMap of a
filterMap in the iteration order given by the association lists. -/
def finishReport (pages : Pages) (heads : HeadsLedger)
    (onlyFailures : Bool) : List (List String) :=
  pages.flatMap fun e => e.2.filterMap (rowFor heads onlyFailures e.1)

/-- HTTP method of a colly request as the source inspects it
(`r.Method == "GET"` / `r.Method == "HEAD"`). -/
inductive ReqMethod where
  | get
  | head
deriving DecidableEq

/-- Outcome of the `OnRequest` callback: whether `r.Abort()` was called,
which `c.Head(...)` requests were enqueued, and the budget counter after
the callback. -/
structure ReqResult where
  aborted : Bool
  headsIssued : List String
  budget : Int
deriving DecidableEq

/-- OnRequest callback of robocop.go (lines 102-125). A GET whose URL has
a non-empty host different from the configured crawl host enqueues one
HEAD for the same URL and aborts. Otherwise the budget section runs under
the mutex: admitted when the budget is positive or the method is HEAD,
decrementing only for GET; otherwise the request is aborted over max
visits. (`r.Ctx.Put("url", ...)` only mirrors the URL into the context
and is not modelled.) -/
def onRequest (host : String) (method : ReqMethod)
    (urlHost urlString : String) (budget : Int) : ReqResult :=
  if method = ReqMethod.get ∧ urlHost ≠ "" ∧ urlHost ≠ host then
    { aborted := true, headsIssued := [urlString], budget := budget }
  else if 0 < budget ∨ method = ReqMethod.head then
    { aborted := false, headsIssued := [],
      budget := if method = ReqMethod.get then budget - 1 else budget }
  else
    { aborted := true, headsIssued := [], budget := budget }

/-- Outcome of the `OnResponse` callback: the updated ledger and the
`c.Head(...)` requests enqueued. -/
structure RespResult where
  heads : HeadsLedger
  headsIssued : List String
deriving DecidableEq

/-- OnResponse callback of robocop.go (lines 127-141): record the status
under the request URL; when the request URL differs from the context URL
(set when the request was made) record it there too; and when
`r.StatusCode > 299 && r.StatusCode < 399` record it under the context
URL again and enqueue a HEAD for the `Location` header value. -/
def onResponse (requestURL ctxURL : String) (statusCode : Int)
    (location : String) (heads : HeadsLedger) : RespResult :=
  let h1 := setStatus heads requestURL statusCode
  let h2 := if requestURL ≠ ctxURL then setStatus h1 ctxURL statusCode else h1
  if 299 < statusCode ∧ statusCode < 399 then
    { heads := setStatus h2 ctxURL statusCode, headsIssued := [location] }
  else
    { heads := h2, headsIssued := [] }

/-- Outcome of the `OnError` callback: the updated ledger and the
`c.Head(...)` requests enqueued. -/
structure ErrResult where
  heads : HeadsLedger
  headsIssued : List String
deriving DecidableEq

/-- OnError callback of robocop.go (lines 143-165): record the status
under the request URL; when the error text is `"Forbidden domain"`
enqueue a HEAD for the same URL, and — only when the URL's scheme is
`http` AND the failing request was itself a HEAD — a second HEAD for the
https variant. -/
def onError (requestURL : String) (method : ReqMethod) (statusCode : Int)
    (errMsg : String) (heads : HeadsLedger) : ErrResult :=
  let h1 := setStatus heads requestURL statusCode
  if errMsg = "Forbidden domain" then
    { heads := h1,
      headsIssued := [requestURL] ++
        (if scheme requestURL = "http" ∧ method = ReqMethod.head
         then [httpsVariant requestURL] else []) }
  else
    { heads := h1, headsIssued := [] }

/-- Characters of a host: everything up to the first `/`. -/
def takeHost (cs : List Char) : List Char :=
  cs.takeWhile (fun c => c ≠ '/')

/-- Split a character list at the first occurrence of `://`. -/
def splitSchemeSep : List Char → Option (List Char × List Char)
  | [] => none
  | ':' :: '/' :: '/' :: rest => some ([], rest)
  | c :: rest =>
    match splitSchemeSep rest with
    | some (pre, post) => some (c :: pre, post)
    | none => none

/-- Root `scheme://host` of an absolute URL. -/
def siteRoot (base : String) : String :=
  match splitSchemeSep base.toList with
  | some (sch, rest) =>
      String.mk (sch ++ (':' :: '/' :: '/' :: takeHost rest))
  | none => base

/-- Modelled from the spec: the URL Normalizer / Page Fetcher anchor
resolution (`e.Request.AbsoluteURL(href)`, provided by the external colly
library, which is not part of this repository's sources) "resolves
relative references to absolute URLs" against the page that contained
them (spec section 4.1). A href that already carries a scheme is returned
unchanged; a root-relative href (leading `/`) is resolved against the
page's `scheme://host`; any other href is appended to the page URL. The
claims exercise only absolute and root-relative hrefs. -/
def absoluteURL (base href : String) : String :=
  if scheme href ≠ "" then href
  else
    match href.toList with
    | '/' :: _ => siteRoot base ++ href
    | _ => base ++ href

/-- Outcome of the `OnHTML` anchor callback: the updated page link set
and the `c.Visit(...)` requests enqueued. -/
structure HTMLResult where
  pages : Pages
  visitsIssued : List String
deriving DecidableEq

/-- OnHTML callback of robocop.go (lines 167-200) for one anchor: resolve
the href against the page URL; when the resolved URL's scheme is `mailto`
return without recording anything and without visiting; otherwise record
the `(page, link)` edge and enqueue a visit of the link. -/
def onHTML (pageURL href : String) (pages : Pages) : HTMLResult :=
  let a := absoluteURL pageURL href
  if scheme a = "mailto" then
    { pages := pages, visitsIssued := [] }
  else
    { pages := insertEdge pages pageURL a, visitsIssued := [a] }

/-- Process a list of anchors found on one page, in document order,
threading the page link set and collecting the visits enqueued. -/
def onHTMLMany (pageURL : String) (hrefs : List String)
    (pages : Pages) : HTMLResult :=
  match hrefs with
  | [] => { pages := pages, visitsIssued := [] }
  | h :: t =>
    let r := onHTML pageURL h pages
    let rest := onHTMLMany pageURL t r.pages
    { pages := rest.pages, visitsIssued := r.visitsIssued ++ rest.visitsIssued }

/-- Observable effects of the interrupt-handler goroutine. -/
structure InterruptEffects where
  dumpsSignal : Bool
  rendersReport : Bool
  exitCode : Int
deriving DecidableEq

/-- Interrupt handler of robocop.go `main` (lines 45-51): on a received
signal the body executes `spew.Dump(sig)` and then `os.Exit(1)`; the line
`printReport(finishReport(pages, heads))` between them is commented out
in the source, so no report is aggregated or rendered before exiting. -/
def interruptHandler : InterruptEffects :=
  { dumpsSignal := true, rendersReport := false, exitCode := 1 }

/-- Steps that touch the `maxVisits` counter: the budget section of an
`OnRequest` callback (run under the mutex, hence atomic), and the single
unguarded `maxVisits--` that `main` executes right after enqueuing the
seed visit (robocop.go line 59). -/
inductive CrawlStep where
  | request (method : ReqMethod) (urlHost urlString : String)
  | seedDec
deriving DecidableEq

/-- Effect of one step on the budget counter. -/
def stepBudget (host : String) : CrawlStep → Int → Int
  | CrawlStep.request m uh us, b => (onRequest host m uh us b).budget
  | CrawlStep.seedDec, b => b - 1

/-- Run a sequence of budget-touching steps from an initial counter. -/
def runBudget (host : String) : List CrawlStep → Int → Int
  | [], b => b
  | s :: t, b => runBudget host t (stepBudget host s b)

/-- Number of `seedDec` steps in a schedule; the program performs exactly
one (robocop.go line 59). -/
def seedCount : List CrawlStep → Nat
  | [] => 0
  | CrawlStep.seedDec :: t => seedCount t + 1
  | CrawlStep.request _ _ _ :: t => seedCount t

/-- C1: the claim expects the row for `http://site.com/x` (status 404) to
carry sslLink `https://site.com/x` and sslStatus `"500"` (the ledger
value of the https variant). The code never assigns `row[3]`, so the
emitted row carries `""` in both the sslLink and sslStatus cells even
though the https variant is resolved (to 500) in the ledger: the second
conjunct exhibits the ledger value the claim says should be rendered. -/
theorem c1_finishReport_sslLink_bug :
    finishReport [("https://site.com/", ["http://site.com/x"])]
        [("http://site.com/x", 404), ("https://site.com/x", 500)] false
      = [["https://site.com/", "http://site.com/x", "404", "", ""]] ∧
    lookupStatus [("http://site.com/x", 404), ("https://site.com/x", 500)]
        (httpsVariant "http://site.com/x") = 500 := by decide

/-- C2: the claim expects the row for `http://site.com/x` (status 404) to
be suppressed under `onlyFailures = true` because its https variant
resolves to 200. The code compares `heads[row[3]]` with `row[3]` never
assigned (so it reads `heads[""] = 0`, not the https variant's 200), and
the row is emitted anyway. -/
theorem c2_finishReport_onlyFailures_bug :
    finishReport [("https://site.com/", ["http://site.com/x"])]
        [("http://site.com/x", 404), ("https://site.com/x", 200)] true
      = [["https://site.com/", "http://site.com/x", "404", "", ""]] ∧
    lookupStatus [("http://site.com/x", 404), ("https://site.com/x", 200)]
        (httpsVariant "http://site.com/x") = 200 := by decide

/-- C3: on an interruption signal the handler terminates the process with
exit code 1, but it does not invoke the Report Aggregator or the Report
Renderer — the `printReport(finishReport(pages, heads))` call in the
handler body is commented out, contradicting both the claim and the
comment above the handler ("Dump a report if we are interrupted before
running to completion."). -/
theorem c3_interrupt_exits_without_report :
    interruptHandler.exitCode = 1 ∧ interruptHandler.rendersReport = false := by
  exact ⟨rfl, rfl⟩

/-- C5: every GET whose target URL has a non-empty host different from
the configured crawl host is aborted by the OnRequest callback before
fetching, and exactly one HEAD check is enqueued for that same URL. -/
theorem c5_crossDomain_get_refused (host urlHost urlString : String) (b : Int)
    (h1 : urlHost ≠ "") (h2 : urlHost ≠ host) :
    (onRequest host ReqMethod.get urlHost urlString b).aborted = true ∧
    (onRequest host ReqMethod.get urlHost urlString b).headsIssued = [urlString] := by
  unfold onRequest
  rw [if_pos ⟨rfl, h1, h2⟩]
  exact ⟨rfl, rfl⟩

/-- C5 witness: the cross-domain refusal at a concrete input (crawl host
`site.com`, target `http://x.com/b` on host `x.com`, budget 5). -/
theorem c5_crossDomain_witness :
    ("x.com" : String) ≠ "" ∧ ("x.com" : String) ≠ "site.com" ∧
    ((onRequest "site.com" ReqMethod.get "x.com" "http://x.com/b" 5).aborted = true ∧
     (onRequest "site.com" ReqMethod.get "x.com" "http://x.com/b" 5).headsIssued
       = ["http://x.com/b"]) :=
  ⟨by decide, by decide,
    c5_crossDomain_get_refused "site.com" "x.com" "http://x.com/b" 5
      (by decide) (by decide)⟩

/-- C6 counterexample: a fetch of `http://facebook.com/` (scheme `http`)
failing with "Forbidden domain" where the failing request was a GET: the
handler enqueues only the one HEAD for the same URL — no second HEAD for
the https variant is issued, contrary to the claim, because the source
additionally requires `r.Request.Method == "HEAD"`. -/
theorem c6_https_probe_counterexample :
    scheme "http://facebook.com/" = "http" ∧
    (onError "http://facebook.com/" ReqMethod.get 0 "Forbidden domain" []).headsIssued
      = ["http://facebook.com/"] ∧
    "https://facebook.com/" ∉
      (onError "http://facebook.com/" ReqMethod.get 0 "Forbidden domain" []).headsIssued := by
  decide

/-- C6 (amended): on EVERY "Forbidden domain" error — whatever the URL's
scheme and whatever the method of the failing request — the handler
enqueues a HEAD for the same URL (first conjunct, unconditional); when
the URL's scheme is `http` AND the failing request was itself a HEAD
request, it enqueues exactly the HEAD for the same URL followed by a
second HEAD for the https variant (second conjunct); and in every other
case the HEAD for the same URL is the only one enqueued (third
conjunct). -/
theorem c6_https_probe_amended (u : String) (m : ReqMethod) (sc : Int)
    (led : HeadsLedger) :
    u ∈ (onError u m sc "Forbidden domain" led).headsIssued ∧
    (scheme u = "http" ∧ m = ReqMethod.head →
      (onError u m sc "Forbidden domain" led).headsIssued = [u, httpsVariant u]) ∧
    (¬(scheme u = "http" ∧ m = ReqMethod.head) →
      (onError u m sc "Forbidden domain" led).headsIssued = [u]) := by
  refine ⟨?_, ?_, ?_⟩
  · simp [onError]
  · intro hc
    obtain ⟨hs, hm⟩ := hc
    subst hm
    simp [onError, hs]
  · intro hc
    simp [onError, hc]

/-- C6 witness: the amended statement at concrete inputs — the
unconditional same-URL HEAD on a failing GET of an https URL (where the
probe condition is false, one HEAD exactly), and the two HEAD checks on
a failing HEAD of `http://facebook.com/`. -/
theorem c6_https_probe_witness :
    "https://facebook.com/" ∈
      (onError "https://facebook.com/" ReqMethod.get 0 "Forbidden domain" []).headsIssued ∧
    (onError "https://facebook.com/" ReqMethod.get 0 "Forbidden domain" []).headsIssued
      = ["https://facebook.com/"] ∧
    (onError "http://facebook.com/" ReqMethod.head 0 "Forbidden domain" []).headsIssued
      = ["http://facebook.com/", httpsVariant "http://facebook.com/"] :=
  ⟨(c6_https_probe_amended "https://facebook.com/" ReqMethod.get 0 []).1,
   (c6_https_probe_amended "https://facebook.com/" ReqMethod.get 0 []).2.2
     (by decide),
   (c6_https_probe_amended "http://facebook.com/" ReqMethod.head 0 []).2.1
     ⟨by decide, rfl⟩⟩

/-- C7: status 399 lies in the claim's redirect range 300-399 inclusive,
yet the OnResponse callback issues no HEAD check for it: the source
condition `r.StatusCode > 299 && r.StatusCode < 399` covers only
300-398, so the response with status 399 and a `Location` header value
`http://dest/` enqueues no lightweight HEAD check. -/
theorem c7_redirect_399_no_head :
    (300 : Int) ≤ 399 ∧ (399 : Int) ≤ 399 ∧
    (onResponse "http://a/" "http://a/" 399 "http://dest/" []).headsIssued = [] := by
  decide

/-- C8: processing the anchors `["/a", "https://x.com/b", "mailto:c@x.com"]`
found on `https://site.com/` yields exactly the edges
`https://site.com/ -> https://site.com/a` and
`https://site.com/ -> https://x.com/b`; the `mailto:` link is excluded
from the page link set and never enqueued for a visit. -/
theorem c8_pageLinkSet_exact :
    (onHTMLMany "https://site.com/"
        ["/a", "https://x.com/b", "mailto:c@x.com"] []).pages
      = [("https://site.com/", ["https://site.com/a", "https://x.com/b"])] ∧
    "mailto:c@x.com" ∉
      (onHTMLMany "https://site.com/"
        ["/a", "https://x.com/b", "mailto:c@x.com"] []).visitsIssued := by
  decide

/-- Budget preservation for one OnRequest callback: the guarded section
decrements only when the counter is positive, so a nonnegative counter
stays nonnegative. -/
lemma onRequest_budget_nonneg (host : String) (m : ReqMethod)
    (uh us : String) {b : Int} (hb : 0 ≤ b) :
    0 ≤ (onRequest host m uh us b).budget := by
  unfold onRequest
  split
  · exact hb
  · split
    · rename_i hcond
      dsimp only
      split
      · rename_i hm
        rcases hcond with h | h
        · omega
        · rw [hm] at h
          cases h
      · exact hb
    · exact hb

/-- Budget preservation for one OnRequest callback, from `-1` up: the
guarded decrement fires only from a positive counter, so the counter
never drops below a value it already dominates by one. -/
lemma onRequest_budget_ge_neg_one (host : String) (m : ReqMethod)
    (uh us : String) {b : Int} (hb : -1 ≤ b) :
    -1 ≤ (onRequest host m uh us b).budget := by
  unfold onRequest
  split
  · exact hb
  · split
    · rename_i hcond
      dsimp only
      split
      · rename_i hm
        rcases hcond with h | h
        · omega
        · rw [hm] at h
          cases h
      · exact hb
    · exact hb

/-- Every prefix of a schedule with no seed decrement keeps the counter
at or above `-1` when it starts there. -/
lemma runBudget_take_noseed (host : String) :
    ∀ (steps : List CrawlStep) (b : Int) (n : Nat), seedCount steps = 0 →
      -1 ≤ b → -1 ≤ runBudget host (steps.take n) b
  | _, b, 0, _, hb => hb
  | [], b, _ + 1, _, hb => hb
  | s :: t, b, n + 1, hs, hb => by
    rw [List.take_succ_cons, runBudget]
    cases s with
    | request m uh us =>
      exact runBudget_take_noseed host t _ n hs
        (onRequest_budget_ge_neg_one host m uh us hb)
    | seedDec =>
      rw [seedCount] at hs
      omega

/-- Every prefix of a schedule with at most one seed decrement keeps the
counter at or above `-1` when it starts nonnegative. -/
lemma runBudget_take_ge (host : String) :
    ∀ (steps : List CrawlStep) (b : Int) (n : Nat), seedCount steps ≤ 1 →
      0 ≤ b → -1 ≤ runBudget host (steps.take n) b
  | _, b, 0, _, hb => (by omega : (-1 : Int) ≤ b)
  | [], b, _ + 1, _, hb => (by omega : (-1 : Int) ≤ b)
  | s :: t, b, n + 1, hs, hb => by
    rw [List.take_succ_cons, runBudget]
    cases s with
    | request m uh us =>
      rw [seedCount] at hs
      exact runBudget_take_ge host t _ n hs
        (onRequest_budget_nonneg host m uh us hb)
    | seedDec =>
      rw [seedCount] at hs
      have hb2 : -1 ≤ stepBudget host CrawlStep.seedDec b := by
        simp only [stepBudget]
        omega
      exact runBudget_take_noseed host t _ n (by omega) hb2

/-- C4 counterexample: the schedule the program actually produces with
`-max-visits=0` — the seed visit's OnRequest callback (aborted over max
visits, counter untouched) followed by the unguarded `maxVisits--` that
`main` runs right after enqueuing the seed visit — drives the counter
from 0 to -1, so the counter does become negative, contrary to the
claim. -/
theorem c4_budget_counterexample :
    seedCount [CrawlStep.request ReqMethod.get "site.com" "https://site.com/",
      CrawlStep.seedDec] = 1 ∧
    runBudget "site.com"
      [CrawlStep.request ReqMethod.get "site.com" "https://site.com/",
        CrawlStep.seedDec] 0 = -1 := by
  decide

/-- C4 (amended): across every interleaving of admission steps containing
at most the one unguarded seed decrement from `main`, a counter that
starts nonnegative never goes below `-1` (the guarded OnRequest
admissions alone never drive it negative; only the seed decrement can
take it from 0 to -1); and whenever the counter is at or below zero
every GET request is aborted while HEAD requests are still permitted. -/
theorem c4_budget_amended (host : String) (steps : List CrawlStep) (b₀ : Int)
    (h₀ : 0 ≤ b₀) (h₁ : seedCount steps ≤ 1) :
    (∀ n, -1 ≤ runBudget host (steps.take n) b₀) ∧
    (∀ uh us b, b ≤ 0 → (onRequest host ReqMethod.get uh us b).aborted = true) ∧
    (∀ uh us b, (onRequest host ReqMethod.head uh us b).aborted = false) := by
  refine ⟨fun n => runBudget_take_ge host steps b₀ n h₁ h₀, ?_, ?_⟩
  · intro uh us b hb
    unfold onRequest
    split
    · rfl
    · split
      · rename_i hcond
        rcases hcond with h | h
        · omega
        · cases h
      · rfl
  · intro uh us b
    unfold onRequest
    split
    · rename_i hcond
      cases hcond.1
    · split
      · rfl
      · rename_i hcond
        exact absurd (Or.inr rfl) hcond

/-- C4 witness: the amended bound at a concrete schedule (one admitted
seed GET followed by the unguarded seed decrement, starting from budget
1): the counter after the full schedule is `-1 ≤ _`. -/
theorem c4_budget_witness :
    (0 : Int) ≤ 1 ∧
    seedCount [CrawlStep.request ReqMethod.get "site.com" "https://site.com/",
      CrawlStep.seedDec] ≤ 1 ∧
    -1 ≤ runBudget "site.com"
      (List.take 2 [CrawlStep.request ReqMethod.get "site.com" "https://site.com/",
        CrawlStep.seedDec]) 1 :=
  ⟨by decide, by decide,
    (c4_budget_amended "site.com"
      [CrawlStep.request ReqMethod.get "site.com" "https://site.com/",
        CrawlStep.seedDec] 1 (by decide) (by decide)).1 2⟩

/-- Multiset view of `finishReport`: the report, read as a multiset of
rows, is the multiset-bind of the per-page row multisets over the
multiset view of the page link set — the iteration order of the
association lists is forgotten on both sides. -/
lemma coe_finishReport (heads : HeadsLedger) (o : Bool) :
    ∀ p : Pages, (↑(finishReport p heads o) : Multiset (List String)) =
      Multiset.bind
        (↑(p.map (fun e => (e.1, (↑e.2 : Multiset String)))) :
          Multiset (String × Multiset String))
        (fun x => Multiset.filterMap (rowFor heads o x.1) x.2)
  | [] => rfl
  | e :: t => by
    simp only [finishReport, List.flatMap_cons, List.map_cons,
      ← Multiset.cons_coe, Multiset.cons_bind, ← Multiset.coe_add]
    rw [Multiset.filterMap_coe]
    exact congrArg (_ + ·) (coe_finishReport heads o t)

/-- C9: finalize is a pure function of the snapshot: whenever two page
link sets present the same pages with the same link sets (the mapped
lists are permutations — the outer and inner map iteration orders are
free), the two reports are equal as multisets of rows, i.e. identical
row sets up to iteration order. -/
theorem c9_finishReport_deterministic (p₁ p₂ : Pages) (heads : HeadsLedger)
    (o : Bool)
    (h : List.Perm (p₁.map (fun e => (e.1, (↑e.2 : Multiset String))))
        (p₂.map (fun e => (e.1, (↑e.2 : Multiset String))))) :
    (↑(finishReport p₁ heads o) : Multiset (List String))
      = ↑(finishReport p₂ heads o) := by
  rw [coe_finishReport, coe_finishReport, Multiset.coe_eq_coe.mpr h]

/-- C9 witness: two enumerations of the same two-page snapshot in
opposite orders produce the same multiset of rows. -/
theorem c9_finishReport_witness :
    (↑(finishReport [("a", ["http://x/"]), ("b", ["http://y/"])]
        [("http://x/", 404), ("http://y/", 500)] false) :
      Multiset (List String))
      = ↑(finishReport [("b", ["http://y/"]), ("a", ["http://x/"])]
        [("http://x/", 404), ("http://y/", 500)] false) :=
  c9_finishReport_deterministic _ _ _ _ (List.Perm.swap _ _ _)

/-- Characterisation of an emitted row: `rowFor` produces a row only when
the link's ledger status is neither 0 nor 200, and the link sits in the
row's second cell. -/
lemma rowFor_some (heads : HeadsLedger) (o : Bool) (sp link : String)
    (row : List String) (h : rowFor heads o sp link = some row) :
    row[1]? = some link ∧
    lookupStatus heads link ≠ 0 ∧ lookupStatus heads link ≠ 200 := by
  simp only [rowFor] at h
  split at h
  · exact absurd h (by simp)
  · rename_i hguard
    push_neg at hguard
    split at h
    · split at h
      · exact absurd h (by simp)
      · cases h
        exact ⟨rfl, hguard.2, hguard.1⟩
    · cases h
      exact ⟨rfl, hguard.2, hguard.1⟩

/-- C10: every row that `finishReport` emits carries in its link cell a
URL whose ledger status is neither 0 (unresolved) nor 200 — edges whose
link is unresolved are silently dropped from the report exactly like
status-200 links, for either value of `onlyFailures`. -/
theorem c10_no_unresolved_rows (pages : Pages) (heads : HeadsLedger)
    (o : Bool) (row : List String) (hr : row ∈ finishReport pages heads o) :
    ∃ link, row[1]? = some link ∧
      lookupStatus heads link ≠ 0 ∧ lookupStatus heads link ≠ 200 := by
  rw [finishReport, List.mem_flatMap] at hr
  obtain ⟨e, -, hrow⟩ := hr
  rw [List.mem_filterMap] at hrow
  obtain ⟨link, -, heq⟩ := hrow
  exact ⟨link, rowFor_some heads o e.1 link row heq⟩

/-- C10 witness: the one row emitted for a broken link carries that link
in its second cell with a ledger status that is neither 0 nor 200. -/
theorem c10_no_unresolved_witness :
    ∃ link, (["p", "http://a/", "404", "", ""] : List String)[1]? = some link ∧
      lookupStatus [("http://a/", 404)] link ≠ 0 ∧
      lookupStatus [("http://a/", 404)] link ≠ 200 :=
  c10_no_unresolved_rows [("p", ["http://a/"])] [("http://a/", 404)] false
    ["p", "http://a/", "404", "", ""] (by decide)

end Robocop
